import Mathlib

/-!
Verification of the breakout reactive analysis pipeline
(`src/packages/rath-client/src/pages/breakout/store.tsx`).

The store's own code (the dataflow stages `global$`, `mainGroup$`,
`generalAnalyses$`, `compareGroup$`, `comparisonAnalyses$`, the setters,
`export`, and `destroy`) is embedded directly.  The collaborators that the
store imports from modules outside the staged sources
(`resolveCompareTarget`, `statDivision`, `applyDividers`,
`analyzeContributions`, `analyzeComparisons`) are kept as parameters of the
pipeline (a `Collaborators` record), and concrete instances modelled from the
specification are supplied where a claim needs to evaluate the pipeline on
concrete data.  The rxjs operators `throttleTime` and `combineLatest` are
modelled by explicit event processing functions.
-/

namespace Breakout

/-- Aggregator of a main field: the source's `NumericalMetricAggregationTypes`
list (`mean`, `sum`, `count`). -/
inductive Aggregator
  | mean
  | sum
  | count
deriving DecidableEq, Repr

/-- A scalar cell value of a row: a number or a string (`IRow` values; the
numeric domain is modelled by the integers). -/
inductive Scalar
  | num (n : Int)
  | str (s : String)
deriving DecidableEq, Repr

/-- A row: a mapping from field id to an optional scalar (missing = `none`). -/
abbrev IRow := List (String × Option Scalar)

/-- Field metadata (`IFieldMeta`): the parts of the descriptor the breakout
store reads (`fid`, `name`, `semanticType`). -/
structure IFieldMeta where
  fid : String
  name : String
  semanticType : String
deriving DecidableEq, Repr

/-- A filter predicate specification over one field: an inclusive numeric
range, or a value-membership set (a missing value is included exactly when
`none` is listed). -/
inductive FilterSpec
  | range (lo hi : Int)
  | values (vs : List (Option Scalar))
deriving DecidableEq, Repr

/-- A filter (`IFilter`): one field id together with its predicate. -/
structure IFilter where
  fid : String
  spec : FilterSpec
deriving DecidableEq, Repr

/-- The source's `BreakoutMainField`: a field id with an aggregator. -/
structure BreakoutMainField where
  fid : String
  aggregator : Aggregator
deriving DecidableEq, Repr

/-- Result shape of `resolveCompareTarget`: a record holding the resolved
target field (`{ field: IFieldMeta }`). -/
structure CompareTarget where
  field : IFieldMeta
deriving DecidableEq, Repr

/-- The source's `FieldStats`: a stats mapping annotated with the main-field
definition that produced it and the resolved target field. -/
structure FieldStats (V : Type) where
  definition : BreakoutMainField
  field : IFieldMeta
  stats : Aggregator → V

/-- Look a field id up in a row. -/
def rowGet (r : IRow) (fid : String) : Option Scalar :=
  match r.find? (fun p => p.1 == fid) with
  | some p => p.2
  | none => none

/-- Modelled from the spec: one filter's predicate on one row (§4.1 of the
spec; the FilterEngine's code is not among the staged sources).  A range
filter passes numeric values inside the inclusive bounds and fails missing or
non-numeric values; a value-set filter passes exactly the listed values, a
missing value only when explicitly listed. -/
def matchFilter (r : IRow) (f : IFilter) : Bool :=
  match f.spec with
  | FilterSpec.range lo hi =>
      match rowGet r f.fid with
      | some (Scalar.num n) => decide (lo ≤ n) && decide (n ≤ hi)
      | _ => false
  | FilterSpec.values vs => vs.contains (rowGet r f.fid)

/-- Modelled from the spec: the FilterEngine `applyDividers(rows, filters)`
(§4.1; its code is not among the staged sources).  It partitions the rows
into those satisfying all filters and those failing at least one, preserving
order; an empty filter list matches every row. -/
def applyDividers (rows : List IRow) (filters : List IFilter) :
    List IRow × List IRow :=
  (rows.filter (fun r => filters.all (fun f => matchFilter r f)),
   rows.filter (fun r => !filters.all (fun f => matchFilter r f)))

/-- Modelled from the spec: one aggregate of one field over a row list (§4.2).
`mean` and `sum` ignore missing and non-numeric values; `count` counts the
non-missing values; the mean of an empty list is 0 (a defined neutral
value). -/
def aggregateValue : Aggregator → List IRow → String → Rat
  | Aggregator.count, rows, fid =>
      (((rows.filter (fun r => (rowGet r fid).isSome)).length : Nat) : Rat)
  | Aggregator.sum, rows, fid =>
      (((rows.filterMap (fun r =>
          match rowGet r fid with
          | some (Scalar.num n) => some n
          | _ => none)).sum : Int) : Rat)
  | Aggregator.mean, rows, fid =>
      let ns := rows.filterMap (fun r =>
        match rowGet r fid with
        | some (Scalar.num n) => some n
        | _ => none)
      if ns.length = 0 then 0 else ((ns.sum : Int) : Rat) / ((ns.length : Nat) : Rat)

/-- Modelled from the spec: `statDivision(fullData, subsetData, fields,
targetFid)` (§4.2; its code is not among the staged sources).  For the field
`targetFid` it computes each aggregator once over the full data and once over
the subset, returning the (global, subset) pair per aggregator. -/
def statDivision (fullData subsetData : List IRow) (_fields : List IFieldMeta)
    (targetFid : String) : Aggregator → Rat × Rat :=
  fun agg => (aggregateValue agg fullData targetFid,
              aggregateValue agg subsetData targetFid)

/-- Modelled from the spec: `resolveCompareTarget(mainField, fields)` (§6; its
code is not among the staged sources).  It maps a main field to the field
metadata it statistically targets; for the supported aggregators the natural
model targets the field whose fid is the main field's own, when present. -/
def resolveCompareTarget (mf : BreakoutMainField) (fields : List IFieldMeta) :
    Option CompareTarget :=
  (fields.find? (fun f => f.fid == mf.fid)).map (fun f => ⟨f⟩)

/-- The collaborator functions the store imports from modules outside the
staged sources; the pipeline is proved for every such record. `V` is the type
a stats mapping assigns per aggregator, `R` the analyzers' result type. -/
structure Collaborators (V R : Type) where
  resolveCompareTarget : BreakoutMainField → List IFieldMeta → Option CompareTarget
  statDivision : List IRow → List IRow → List IFieldMeta → String → (Aggregator → V)
  analyzeContributions : List IRow → List IFieldMeta → BreakoutMainField → V → List R
  analyzeComparisons : List IRow → List IRow → List IFieldMeta → BreakoutMainField → List R

/-- The three mutable inputs of the store, as combined by `inputFlow$`. -/
structure Inputs where
  mainField : Option BreakoutMainField
  mainFieldFilters : List IFilter
  comparisonFilters : List IFilter
deriving DecidableEq, Repr

/-- The value emitted by `global$`: the inputs together with the resolved
target field and the global stats. -/
structure GlobalOut (V : Type) where
  mainField : Option BreakoutMainField
  mainFieldFilters : List IFilter
  comparisonFilters : List IFilter
  targetField : Option CompareTarget
  globalStats : Option (FieldStats V)

/-- The `map` body of `global$`: resolve the target, and when both the main
field and the target are present compute `statDivision(data, data, fields,
targetField.field.fid)`. -/
def globalStage {V R : Type} (C : Collaborators V R) (data : List IRow)
    (fields : List IFieldMeta) (i : Inputs) : GlobalOut V :=
  let targetField :=
    match i.mainField with
    | some mf => C.resolveCompareTarget mf fields
    | none => none
  let globalStats :=
    match i.mainField, targetField with
    | some mf, some tf =>
        some ⟨mf, tf.field, C.statDivision data data fields tf.field.fid⟩
    | _, _ => none
  ⟨i.mainField, i.mainFieldFilters, i.comparisonFilters, targetField, globalStats⟩

/-- The value emitted by `mainGroup$`. -/
structure MainGroupOut (V : Type) where
  data : List IRow
  stats : Option (FieldStats V)
  mainField : Option BreakoutMainField
  globalStats : Option (FieldStats V)

/-- The `map` body of `mainGroup$`: filter the original data by the main-field
filters; when the main field, the target and a non-empty filter list are all
present compute `statDivision(data, filtered, fields, mainField.fid)`. -/
def mainGroupStage {V R : Type} (C : Collaborators V R) (data : List IRow)
    (fields : List IFieldMeta) (g : GlobalOut V) : MainGroupOut V :=
  let filtered := (applyDividers data g.mainFieldFilters).1
  let stats :=
    match g.mainField, g.targetField with
    | some mf, some tf =>
        if g.mainFieldFilters.isEmpty then none
        else some ⟨mf, tf.field, C.statDivision data filtered fields mf.fid⟩
    | _, _ => none
  ⟨filtered, stats, g.mainField, g.globalStats⟩

/-- The `map` body of `generalAnalyses$`: empty unless both the main field and
the global stats are present, else `analyzeContributions` over the selection
with the aggregator value picked from the global stats. -/
def generalAnalysesStage {V R : Type} (C : Collaborators V R)
    (fields : List IFieldMeta) (m : MainGroupOut V) : List R :=
  match m.mainField, m.globalStats with
  | some mf, some gs =>
      C.analyzeContributions m.data fields mf (gs.stats mf.aggregator)
  | _, _ => []

/-- The value emitted by `compareGroup$`. -/
structure CompareOut (V : Type) where
  data : List IRow
  stats : Option (FieldStats V)

/-- The `map` body of `compareGroup$`: short-circuits to `(data: [], stats:
null)` unless the main field, the global stats and a non-empty comparison
filter list are all present; otherwise filters the original data and builds
stats over `mainField.fid`, annotated with `resolveCompareTarget(mainField,
fields)!.field`.  The source dereferences that resolution with a non-null
assertion; the `none` result models the run in which that assertion would
throw. -/
def compareGroupStage {V R : Type} (C : Collaborators V R) (data : List IRow)
    (fields : List IFieldMeta) (g : GlobalOut V) : Option (CompareOut V) :=
  match g.mainField, g.globalStats with
  | some mf, some _ =>
      if g.comparisonFilters.isEmpty then some ⟨[], none⟩
      else
        match C.resolveCompareTarget mf fields with
        | some tf =>
            some ⟨(applyDividers data g.comparisonFilters).1,
              some ⟨mf, tf.field,
                C.statDivision data (applyDividers data g.comparisonFilters).1
                  fields mf.fid⟩⟩
        | none => none
  | _, _ => some ⟨[], none⟩

/-- The `map` body of `comparisonAnalyses$` applied to one consistent
combination of `mainGroup$`, `compareGroup$` and `global$` values. -/
def comparisonAnalysesStage {V R : Type} (C : Collaborators V R)
    (fields : List IFieldMeta) (m : MainGroupOut V) (c : CompareOut V)
    (g : GlobalOut V) : List R :=
  match g.mainField with
  | none => []
  | some mf =>
      if g.comparisonFilters.isEmpty then []
      else C.analyzeComparisons m.data c.data fields mf

/-- The five published derived fields of the store, plus the two published row
subsets. -/
structure Published (V R : Type) where
  globalStats : Option (FieldStats V)
  selection : List IRow
  selectionStats : Option (FieldStats V)
  diffGroup : List IRow
  diffStats : Option (FieldStats V)
  generalAnalyses : List R
  comparisonAnalyses : List R

/-- One complete recomputation wave: every stage evaluated on one input
emission, and each subscription's update applied.  `none` models the wave in
which `compareGroup$`'s non-null assertion would throw. -/
def runWave {V R : Type} (C : Collaborators V R) (data : List IRow)
    (fields : List IFieldMeta) (i : Inputs) : Option (Published V R) :=
  let g := globalStage C data fields i
  let m := mainGroupStage C data fields g
  match compareGroupStage C data fields g with
  | none => none
  | some c =>
      some ⟨g.globalStats, m.data, m.stats, c.data, c.stats,
        generalAnalysesStage C fields m,
        comparisonAnalysesStage C fields m c g⟩

/-- The published fields as the constructor initializes them (`selection`
starts as the whole dataset, everything else null or empty). -/
def initPub (V R : Type) (data : List IRow) : Published V R :=
  ⟨none, data, none, [], none, [], []⟩

/-- The published state after a completed recomputation wave on inputs `i`
(the wave never crashes, see `runWave_isSome`). -/
def wavePub {V R : Type} (C : Collaborators V R) (data : List IRow)
    (fields : List IFieldMeta) (i : Inputs) : Published V R :=
  (runWave C data fields i).getD (initPub V R data)

/-- The observable state of a `BreakoutStore` instance: the three mutable
inputs, the published derived fields, and whether `destroy()` has run. -/
structure StoreState (V R : Type) where
  inputs : Inputs
  pub : Published V R
  destroyed : Bool

/-- The state the constructor builds: no main field, empty filter lists,
`selection` the whole dataset, all derived fields null or empty. -/
def initState (V R : Type) (data : List IRow) : StoreState V R :=
  ⟨⟨none, [], []⟩, initPub V R data, false⟩

/-- The operations observable on a store: the three setters, the completion of
one recomputation wave of the subscription graph, and `destroy()`. -/
inductive Action
  | setMainField (mf : Option BreakoutMainField)
  | setMainFieldFilters (fs : List IFilter)
  | setComparisonFilters (fs : List IFilter)
  | wave
  | destroy

/-- One step of the store: a setter replaces its input; a wave republishes
every derived field from the current inputs (after `destroy()` all
subscriptions are cancelled, so a wave republishes nothing; a crashing wave
would leave the previous publication in place); `destroy()` unsubscribes. -/
def stepStore {V R : Type} (C : Collaborators V R) (data : List IRow)
    (fields : List IFieldMeta) (s : StoreState V R) : Action → StoreState V R
  | Action.setMainField mf =>
      { s with inputs := { s.inputs with mainField := mf } }
  | Action.setMainFieldFilters fs =>
      { s with inputs := { s.inputs with mainFieldFilters := fs } }
  | Action.setComparisonFilters fs =>
      { s with inputs := { s.inputs with comparisonFilters := fs } }
  | Action.wave =>
      if s.destroyed then s
      else { s with pub := (runWave C data fields s.inputs).getD s.pub }
  | Action.destroy => { s with destroyed := true }

/-- A sequence of store operations, applied in order. -/
def runActions {V R : Type} (C : Collaborators V R) (data : List IRow)
    (fields : List IFieldMeta) : StoreState V R → List Action → StoreState V R
  | s, [] => s
  | s, a :: rest => runActions C data fields (stepStore C data fields s a) rest

/-- The source's `IExportFilter`: a filter annotated with the resolved field's
name and semantic type. -/
structure IExportFilter where
  filter : IFilter
  name : String
  semanticType : String
deriving DecidableEq, Repr

/-- The source's `BreakoutMainFieldExport`. -/
structure BreakoutMainFieldExport where
  fid : String
  aggregator : Aggregator
  name : String
  semanticType : String
deriving DecidableEq, Repr

/-- The source's `BreakoutStoreExports` snapshot shape. -/
structure BreakoutStoreExports where
  mainField : Option BreakoutMainFieldExport
  mainFieldFilters : List IExportFilter
  comparisonFilters : List IExportFilter
deriving DecidableEq, Repr

/-- The source's `exportFilters` helper: for each filter in order, look its
fid up in the field metas; annotate and keep it when found, drop it
otherwise. -/
def exportFilters : List IFilter → List IFieldMeta → List IExportFilter
  | [], _ => []
  | f :: rest, fieldMetas =>
      match fieldMetas.find? (fun fm => fm.fid == f.fid) with
      | some fm => ⟨f, fm.name, fm.semanticType⟩ :: exportFilters rest fieldMetas
      | none => exportFilters rest fieldMetas

/-- The spec's words for `exportFilters` (§4.5: filters referencing a field
not found in `fields` are silently dropped; the rest are annotated with the
resolved field's name and semantic type, in their original order). -/
def exportFiltersSpec (filters : List IFilter) (fieldMetas : List IFieldMeta) :
    List IExportFilter :=
  filters.filterMap (fun f =>
    (fieldMetas.find? (fun fm => fm.fid == f.fid)).map
      (fun fm => ⟨f, fm.name, fm.semanticType⟩))

/-- The source's `export()` method, as a function of the store's current
inputs: resolve the main field's target (null main field resolves to null),
and export both filter lists through `exportFilters`. -/
def exportStore (rct : BreakoutMainField → List IFieldMeta → Option CompareTarget)
    (fields : List IFieldMeta) (mainField : Option BreakoutMainField)
    (mainFieldFilters comparisonFilters : List IFilter) : BreakoutStoreExports :=
  ⟨match mainField with
    | none => none
    | some mf =>
        match rct mf fields with
        | some tgt =>
            some ⟨mf.fid, mf.aggregator, tgt.field.name, tgt.field.semanticType⟩
        | none => none,
   exportFilters mainFieldFilters fields,
   exportFilters comparisonFilters fields⟩

/-- The rxjs `throttleTime(d, asyncScheduler, \x7b leading: true, trailing:
true \x7d)` operator on a time-ordered event list, as one subscription chain
of the store runs it: an event outside a throttle window is emitted at once
and opens a window of length `d`; events inside a window replace the pending
trailing value; when a window closes on a pending value, that value is
emitted and a new window opens. -/
def throttleProc {α : Type} (d : Nat) :
    List (Nat × α) → Option (Nat × Option α) → List (Nat × α)
  | [], none => []
  | [], some (_, none) => []
  | [], some (e, some a) => [(e, a)]
  | (t, a) :: rest, none => (t, a) :: throttleProc d rest (some (t + d, none))
  | (t, a) :: rest, some (e, none) =>
      if t < e then throttleProc d rest (some (e, some a))
      else (t, a) :: throttleProc d rest (some (t + d, none))
  | (t, a) :: rest, some (e, some b) =>
      if t < e then throttleProc d rest (some (e, some a))
      else if t < e + d then (e, b) :: throttleProc d rest (some (e + d, some a))
      else (e, b) :: (t, a) :: throttleProc d rest (some (t + d, none))

/-- Which of the three upstream chains of `comparisonBase$`'s `combineLatest`
an emission comes from (`mainGroup$`, `compareGroup$`, `global$`). -/
inductive Src
  | A
  | B
  | C
deriving DecidableEq, Repr

/-- One slot update of a three-source `combineLatest`. -/
def clStep {α : Type} (src : Src) (v : α) :
    Option α × Option α × Option α → Option α × Option α × Option α
  | (a, b, c) =>
      match src with
      | Src.A => (some v, b, c)
      | Src.B => (a, some v, c)
      | Src.C => (a, b, some v)

/-- The rxjs `combineLatest` of three sources over a merged, time-ordered,
tagged emission list: each emission updates its slot and, once every slot has
a value, produces one downstream evaluation. -/
def combineLatestRun {α : Type} :
    List (Src × α) → Option α × Option α × Option α → List (α × α × α)
  | [], _ => []
  | (src, v) :: rest, st =>
      match clStep src v st with
      | (some x, some y, some z) =>
          (x, y, z) :: combineLatestRun rest (some x, some y, some z)
      | (a, b, c) => combineLatestRun rest (a, b, c)

/-- Tag each throttled emission once per upstream chain of
`comparisonBase$`'s `combineLatest`, in the synchronous delivery order
(`mainGroup$` first, then `compareGroup$`, then `global$`): the three chains
throttle the same input stream with the same timing, so their emission lists
coincide. -/
def tagTriples {α : Type} : List (Nat × α) → List (Src × α)
  | [] => []
  | p :: rest => (Src.A, p.2) :: (Src.B, p.2) :: (Src.C, p.2) :: tagTriples rest

/-- How many times `analyzeContributions` runs for a burst of input events:
`generalAnalyses$` sits behind a single `throttleTime(200)` chain, so once
per throttled emission. -/
def generalEvaluations {α : Type} (events : List (Nat × α)) : Nat :=
  (throttleProc 200 events none).length

/-- How many times `analyzeComparisons` runs for a burst of input events:
`comparisonAnalyses$` maps over the `combineLatest` of three separately
throttled chains (`mainGroup$`, `compareGroup$`, `global$`), each of which
emits the burst through its own `throttleTime(200)`; `a`, `b`, `c` are the
slot values already latched before the burst (the construction-time
emissions). -/
def comparisonEvaluations {α : Type} (events : List (Nat × α)) (a b c : α) : Nat :=
  (combineLatestRun (tagTriples (throttleProc 200 events none))
    (some a, some b, some c)).length

/-- The null-propagation invariant of the published stats relative to a set of
inputs: all three stats are null without a main field, `selectionStats` is
null when the main-field filter set is empty, `diffStats` is null when the
comparison filter set is empty. -/
def statsNullInvariant {V R : Type} (i : Inputs) (p : Published V R) : Prop :=
  (i.mainField = none →
    p.globalStats = none ∧ p.selectionStats = none ∧ p.diffStats = none)
  ∧ (i.mainFieldFilters = [] → p.selectionStats = none)
  ∧ (i.comparisonFilters = [] → p.diffStats = none)

/-- A two-column quantitative field list used for concrete evaluations. -/
def fieldA : IFieldMeta := ⟨"a", "A", "quantitative"⟩

/-- The second demo field. -/
def fieldB : IFieldMeta := ⟨"b", "B", "quantitative"⟩

/-- The demo field metadata list. -/
def demoFields : List IFieldMeta := [fieldA, fieldB]

/-- A two-row demo dataset: column `a` holds 1 and 2, column `b` holds 10 and
20. -/
def demoRows : List IRow :=
  [[("a", some (Scalar.num 1)), ("b", some (Scalar.num 10))],
   [("a", some (Scalar.num 2)), ("b", some (Scalar.num 20))]]

/-- The spec-modelled collaborators with trivial analyzers (the analyzers'
outputs are irrelevant to the stats claims). -/
def demoCollab : Collaborators (Rat × Rat) Unit :=
  ⟨resolveCompareTarget, statDivision, fun _ _ _ _ => [], fun _ _ _ _ => []⟩

/-- The state reached by setting a main field, completing a wave, then
setting the main field back to null without a further wave: the published
stats are stale. -/
def staleTrace : StoreState (Rat × Rat) Unit :=
  runActions demoCollab demoRows demoFields (initState (Rat × Rat) Unit demoRows)
    [Action.setMainField (some ⟨"a", Aggregator.mean⟩), Action.wave,
     Action.setMainField none]

/-- A resolver for which the target field of a main field over column `a`
is column `b` (the spec allows the resolved target to differ from the main
field, e.g. a rate's numerator or denominator). -/
def rctToB : BreakoutMainField → List IFieldMeta → Option CompareTarget :=
  fun _ fields => (fields.find? (fun f => f.fid == "b")).map (fun f => ⟨f⟩)

/-- The demo collaborators under the diverging resolver. -/
def divergingCollab : Collaborators (Rat × Rat) Unit :=
  ⟨rctToB, statDivision, fun _ _ _ _ => [], fun _ _ _ _ => []⟩

/-- A filter on column `a` matching every demo row. -/
def filterAll : IFilter := ⟨"a", FilterSpec.range 0 100⟩

/-- Inputs whose main field is column `a` with the `sum` aggregator, with the
same non-empty filter list on both filter slots. -/
def divergingInputs : Inputs :=
  ⟨some ⟨"a", Aggregator.sum⟩, [filterAll], [filterAll]⟩

/-- The wave publication under the diverging resolver. -/
def divergingPub : Published (Rat × Rat) Unit :=
  wavePub divergingCollab demoRows demoFields divergingInputs

/-- A burst of ten `setMainFieldFilters` changes inside a 50ms window,
starting from idle throttles. -/
def burstEvents : List (Nat × Nat) :=
  [(0, 0), (5, 1), (10, 2), (15, 3), (20, 4), (25, 5), (30, 6), (35, 7),
   (40, 8), (45, 9)]

/-- Within one wave, `compareGroup$`'s non-null assertion cannot fire: its
input record comes from the same `global$` emission, so a non-null
`globalStats` means the (deterministic) resolution already succeeded. -/
theorem compareGroupStage_isSome {V R : Type} (C : Collaborators V R)
    (data : List IRow) (fields : List IFieldMeta) (i : Inputs) :
    (compareGroupStage C data fields (globalStage C data fields i)).isSome = true := by
  cases hm : i.mainField with
  | none => simp [globalStage, compareGroupStage, hm]
  | some mf =>
      cases hr : C.resolveCompareTarget mf fields with
      | none => simp [globalStage, compareGroupStage, hm, hr]
      | some tf =>
          cases hf : i.comparisonFilters.isEmpty <;>
            simp [globalStage, compareGroupStage, hm, hr, hf]

/-- A recomputation wave always completes. -/
theorem runWave_isSome {V R : Type} (C : Collaborators V R) (data : List IRow)
    (fields : List IFieldMeta) (i : Inputs) :
    (runWave C data fields i).isSome = true := by
  have h := compareGroupStage_isSome C data fields i
  unfold runWave
  cases hc : compareGroupStage C data fields (globalStage C data fields i) with
  | none => rw [hc] at h; exact Bool.noConfusion h
  | some c => simp [hc]

/-- A wave's result is exactly the `wavePub` record. -/
theorem runWave_eq_wavePub {V R : Type} (C : Collaborators V R) (data : List IRow)
    (fields : List IFieldMeta) (i : Inputs) :
    runWave C data fields i = some (wavePub C data fields i) := by
  have h := runWave_isSome C data fields i
  cases hc : runWave C data fields i with
  | none => rw [hc] at h; exact Bool.noConfusion h
  | some p => simp [wavePub, hc]

/-- The wave's published record, in terms of its stage outputs. -/
theorem wavePub_eq {V R : Type} (C : Collaborators V R) (data : List IRow)
    (fields : List IFieldMeta) (i : Inputs) (c : CompareOut V)
    (hc : compareGroupStage C data fields (globalStage C data fields i) = some c) :
    wavePub C data fields i =
      ⟨(globalStage C data fields i).globalStats,
       (mainGroupStage C data fields (globalStage C data fields i)).data,
       (mainGroupStage C data fields (globalStage C data fields i)).stats,
       c.data, c.stats,
       generalAnalysesStage C fields
         (mainGroupStage C data fields (globalStage C data fields i)),
       comparisonAnalysesStage C fields
         (mainGroupStage C data fields (globalStage C data fields i)) c
         (globalStage C data fields i)⟩ := by
  simp [wavePub, runWave, hc]

/-- Case analysis of the value `compareGroup$` emits: its row subset is a
fresh filter of the original data or empty; its stats are null whenever the
comparison filters are empty or the main field is null. -/
theorem compareOut_cases {V R : Type} (C : Collaborators V R) (data : List IRow)
    (fields : List IFieldMeta) (g : GlobalOut V) (c : CompareOut V)
    (h : compareGroupStage C data fields g = some c) :
    (c.data = (applyDividers data g.comparisonFilters).1 ∨ c.data = [])
    ∧ (g.comparisonFilters = [] → c.stats = none)
    ∧ (g.mainField = none → c.data = [] ∧ c.stats = none) := by
  unfold compareGroupStage at h
  split at h
  · rename_i mf gs hmf hgs
    split at h
    · rename_i hemp
      obtain rfl : (⟨[], none⟩ : CompareOut V) = c := Option.some_injective _ h
      refine ⟨Or.inr rfl, fun _ => rfl, fun hn => ?_⟩
      rw [hmf] at hn
      exact Option.noConfusion hn
    · rename_i hemp
      split at h
      · rename_i tf htf
        obtain rfl := Option.some_injective _ h
        refine ⟨Or.inl rfl, fun he => ?_, fun hn => ?_⟩
        · rw [he] at hemp
          exact absurd rfl hemp
        · rw [hmf] at hn
          exact Option.noConfusion hn
      · exact Option.noConfusion h
  · obtain rfl : (⟨[], none⟩ : CompareOut V) = c := Option.some_injective _ h
    exact ⟨Or.inr rfl, fun _ => rfl, fun _ => ⟨rfl, rfl⟩⟩

/-- C9: in `compareGroup$`, whenever the guard passes, the second call of
`resolveCompareTarget(mainField, fields)` returns a non-null value, because
`globalStats` non-null in the same wave record means the first (identical,
deterministic) resolution succeeded; so the stage — and the whole wave — never
hits the null dereference, for every collaborator record, dataset, field list
and input. -/
theorem claim_C9 {V R : Type} (C : Collaborators V R) (data : List IRow)
    (fields : List IFieldMeta) (i : Inputs) :
    (compareGroupStage C data fields (globalStage C data fields i)).isSome = true
    ∧ (runWave C data fields i).isSome = true :=
  ⟨compareGroupStage_isSome C data fields i, runWave_isSome C data fields i⟩

/-- C3: in every recomputation wave, the published `selection` is the matched
part of `applyDividers` on the original constructor dataset with the wave's
`mainFieldFilters`, `diffGroup` is the matched part of `applyDividers` on the
original dataset with the wave's `comparisonFilters` or `[]` when its stage
short-circuits, and both are sublists (hence subsets) of the original
dataset. -/
theorem claim_C3 {V R : Type} (C : Collaborators V R) (data : List IRow)
    (fields : List IFieldMeta) (i : Inputs) :
    (wavePub C data fields i).selection = (applyDividers data i.mainFieldFilters).1
    ∧ ((wavePub C data fields i).diffGroup = (applyDividers data i.comparisonFilters).1
        ∨ (wavePub C data fields i).diffGroup = [])
    ∧ (wavePub C data fields i).selection.Sublist data
    ∧ (wavePub C data fields i).diffGroup.Sublist data := by
  obtain ⟨c, hc⟩ := Option.isSome_iff_exists.mp (compareGroupStage_isSome C data fields i)
  rw [wavePub_eq C data fields i c hc]
  have hcases := compareOut_cases C data fields _ c hc
  refine ⟨rfl, hcases.1, List.filter_sublist data, ?_⟩
  rcases hcases.1 with h | h
  · rw [h]
    exact List.filter_sublist data
  · rw [h]
    exact List.nil_sublist data

/-- C4: in every recomputation wave, the published `generalAnalyses` is
`analyzeContributions(selection, fields, mainField,
globalStats.stats[mainField.aggregator])` when both the wave's main field and
its global stats are non-null, and the empty list otherwise. -/
theorem claim_C4 {V R : Type} (C : Collaborators V R) (data : List IRow)
    (fields : List IFieldMeta) (i : Inputs) :
    (wavePub C data fields i).generalAnalyses =
      match i.mainField, (wavePub C data fields i).globalStats with
      | some mf, some gs =>
          C.analyzeContributions (wavePub C data fields i).selection fields mf
            (gs.stats mf.aggregator)
      | _, _ => [] := by
  obtain ⟨c, hc⟩ := Option.isSome_iff_exists.mp (compareGroupStage_isSome C data fields i)
  rw [wavePub_eq C data fields i c hc]
  rfl

/-- C2 (amended): the null-propagation invariant holds in the constructor's
initial state and in every state just published by a completed recomputation
wave, relative to that wave's inputs; between a setter call and the next wave
the published stats may be stale (see the counterexample). -/
theorem claim_C2_amended {V R : Type} (C : Collaborators V R)
    (data dataInit : List IRow) (fields : List IFieldMeta) (i : Inputs) :
    statsNullInvariant (initState V R dataInit).inputs (initState V R dataInit).pub
    ∧ statsNullInvariant i (wavePub C data fields i) := by
  constructor
  · exact ⟨fun _ => ⟨rfl, rfl, rfl⟩, fun _ => rfl, fun _ => rfl⟩
  obtain ⟨c, hc⟩ := Option.isSome_iff_exists.mp (compareGroupStage_isSome C data fields i)
  have hcases := compareOut_cases C data fields _ c hc
  rw [wavePub_eq C data fields i c hc]
  refine ⟨fun h => ⟨?_, ?_, ?_⟩, fun h => ?_, fun h => hcases.2.1 h⟩
  · simp [globalStage, h]
  · simp [mainGroupStage, globalStage, h]
  · exact (hcases.2.2 h).2
  · cases hm : i.mainField with
    | none => simp [mainGroupStage, globalStage, hm]
    | some mf =>
        cases ht : C.resolveCompareTarget mf fields with
        | none => simp [mainGroupStage, globalStage, hm, ht]
        | some tf => simp [mainGroupStage, globalStage, hm, ht, h]

/-- C8: calling `setMainFieldFilters` twice with the same filter list, each
call followed by a completed recomputation wave, publishes the same
`selectionStats` both times: a wave is a pure function of the inputs. -/
theorem claim_C8 {V R : Type} (C : Collaborators V R) (data : List IRow)
    (fields : List IFieldMeta) (s : StoreState V R) (F : List IFilter) :
    (stepStore C data fields
        (stepStore C data fields s (Action.setMainFieldFilters F))
        Action.wave).pub.selectionStats
    = (stepStore C data fields
        (stepStore C data fields
          (stepStore C data fields
            (stepStore C data fields s (Action.setMainFieldFilters F))
            Action.wave)
          (Action.setMainFieldFilters F))
        Action.wave).pub.selectionStats := by
  have h1 := runWave_eq_wavePub C data fields { s.inputs with mainFieldFilters := F }
  cases hd : s.destroyed <;> simp [stepStore, hd, h1]

/-- Once a store is destroyed it stays destroyed, and no further operation
changes its published state. -/
theorem destroyed_frozen {V R : Type} (C : Collaborators V R) (data : List IRow)
    (fields : List IFieldMeta) :
    ∀ (acts : List Action) (s : StoreState V R), s.destroyed = true →
      (runActions C data fields s acts).destroyed = true
      ∧ (runActions C data fields s acts).pub = s.pub := by
  intro acts
  induction acts with
  | nil => exact fun s h => ⟨h, rfl⟩
  | cons a rest ih =>
      intro s h
      cases a with
      | setMainField mf => exact ih _ h
      | setMainFieldFilters fs => exact ih _ h
      | setComparisonFilters fs => exact ih _ h
      | wave => simpa [runActions, stepStore, h] using ih s h
      | destroy => exact ih _ rfl

/-- C6: after `destroy()`, no sequence of setter calls, waves or further
`destroy()` calls ever changes the published state again (all subscriptions,
including any pending trailing-throttle work, are torn down), and a second
`destroy()` is a no-op on the store state. -/
theorem claim_C6 {V R : Type} (C : Collaborators V R) (data : List IRow)
    (fields : List IFieldMeta) :
    (∀ (s : StoreState V R) (acts : List Action),
        (runActions C data fields
          (stepStore C data fields s Action.destroy) acts).pub = s.pub)
    ∧ (∀ s : StoreState V R,
        stepStore C data fields (stepStore C data fields s Action.destroy)
            Action.destroy
          = stepStore C data fields s Action.destroy) := by
  refine ⟨fun s acts => ?_, fun s => rfl⟩
  exact (destroyed_frozen C data fields acts
    (stepStore C data fields s Action.destroy) rfl).2

/-- The number of matches of `find?` is the `any` of the predicate. -/
theorem find?_isSome_eq_any {α : Type} (p : α → Bool) :
    ∀ l : List α, (l.find? p).isSome = l.any p := by
  intro l
  induction l with
  | nil => rfl
  | cons x xs ih => cases hp : p x <;> simp [List.find?_cons, hp, ih]

/-- The source's `exportFilters` loop computes the spec's description of it. -/
theorem exportFilters_eq_spec :
    ∀ (fs : List IFilter) (fm : List IFieldMeta),
      exportFilters fs fm = exportFiltersSpec fs fm := by
  intro fs fm
  induction fs with
  | nil => rfl
  | cons f rest ih =>
      cases h : fm.find? (fun q => q.fid == f.fid) with
      | none => simpa [exportFilters, exportFiltersSpec, List.filterMap_cons, h]
          using ih
      | some fm0 => simpa [exportFilters, exportFiltersSpec, List.filterMap_cons, h]
          using ih

/-- The exported filters are exactly the filters whose fid occurs among the
field metas, in their original order. -/
theorem exportFilters_proj :
    ∀ (fs : List IFilter) (fm : List IFieldMeta),
      (exportFilters fs fm).map (fun e => e.filter)
        = fs.filter (fun f => fm.any (fun q => q.fid == f.fid)) := by
  intro fs fm
  induction fs with
  | nil => rfl
  | cons f rest ih =>
      have hany := find?_isSome_eq_any (fun q : IFieldMeta => q.fid == f.fid) fm
      cases h : fm.find? (fun q => q.fid == f.fid) with
      | none =>
          rw [h] at hany
          simp [exportFilters, h, List.filter_cons, ← hany]
          exact ih
      | some fm0 =>
          rw [h] at hany
          simp [exportFilters, h, List.filter_cons, ← hany]
          exact ih

/-- C5: for every store state, the exported snapshot's `mainFieldFilters` and
`comparisonFilters` are computed by the spec's rule (each current filter
whose fid is found among the constructor's fields, annotated with that
field's name and semantic type; unresolvable filters silently dropped), and
projecting the annotations away yields exactly the current filters whose fid
occurs in the fields, in their original order. -/
theorem claim_C5
    (rct : BreakoutMainField → List IFieldMeta → Option CompareTarget)
    (fields : List IFieldMeta) (mf : Option BreakoutMainField)
    (a b : List IFilter) :
    (exportStore rct fields mf a b).mainFieldFilters = exportFiltersSpec a fields
    ∧ (exportStore rct fields mf a b).comparisonFilters = exportFiltersSpec b fields
    ∧ ((exportStore rct fields mf a b).mainFieldFilters).map (fun e => e.filter)
        = a.filter (fun f => fields.any (fun q => q.fid == f.fid))
    ∧ ((exportStore rct fields mf a b).comparisonFilters).map (fun e => e.filter)
        = b.filter (fun f => fields.any (fun q => q.fid == f.fid)) := by
  exact ⟨exportFilters_eq_spec a fields, exportFilters_eq_spec b fields,
    exportFilters_proj a fields, exportFilters_proj b fields⟩

/-- C10: the exported snapshot's `mainField` is non-null exactly when the
current main field is non-null and `resolveCompareTarget` resolves it against
the constructor's fields; a set but unresolvable main field is exported as
null. -/
theorem claim_C10
    (rct : BreakoutMainField → List IFieldMeta → Option CompareTarget)
    (fields : List IFieldMeta) (mf : Option BreakoutMainField)
    (a b : List IFilter) :
    (exportStore rct fields mf a b).mainField.isSome
      = (mf.bind (fun m => rct m fields)).isSome
    ∧ ((exportStore rct fields mf a b).mainField.isSome = true
        ↔ ∃ m, mf = some m ∧ (rct m fields).isSome = true) := by
  cases mf with
  | none => simp [exportStore]
  | some m => cases h : rct m fields <;> simp [exportStore, h]

/-- C2 (counterexample): a state reachable by setter calls and completed
recomputation waves in which `mainField` is null while `globalStats` is still
the previous wave's non-null value — the claimed invariant does not hold of
every reachable state, only of freshly published ones. -/
theorem claim_C2_counterexample :
    staleTrace.inputs.mainField = none ∧ staleTrace.pub.globalStats ≠ none := by
  refine ⟨rfl, fun hn => ?_⟩
  have h : staleTrace.pub.globalStats.isSome = true := rfl
  rw [hn] at h
  exact Bool.noConfusion h

/-- C1: evaluated at a resolver whose target field (`b`) differs from the
main field (`a`), the published `selectionStats` and `diffStats` are
annotated with the resolved target field `b`, yet their stats mapping is the
`statDivision` aggregate over `mainField.fid` (`a`), not over the resolved
target's fid as the claim (and `global$` itself) requires. -/
theorem claim_C1_eval :
    divergingPub.selectionStats.map (fun st => st.field.fid) = some fieldB.fid
    ∧ divergingPub.selectionStats.map (fun st => st.stats Aggregator.sum)
        = some (statDivision demoRows divergingPub.selection demoFields
            fieldA.fid Aggregator.sum)
    ∧ divergingPub.selectionStats.map (fun st => st.stats Aggregator.sum)
        ≠ some (statDivision demoRows divergingPub.selection demoFields
            fieldB.fid Aggregator.sum)
    ∧ divergingPub.diffStats.map (fun st => st.field.fid) = some fieldB.fid
    ∧ divergingPub.diffStats.map (fun st => st.stats Aggregator.sum)
        = some (statDivision demoRows divergingPub.diffGroup demoFields
            fieldA.fid Aggregator.sum)
    ∧ divergingPub.diffStats.map (fun st => st.stats Aggregator.sum)
        ≠ some (statDivision demoRows divergingPub.diffGroup demoFields
            fieldB.fid Aggregator.sum) := by
  decide

/-- Events that all arrive inside an open throttle window only replace the
pending trailing value, so at most the one trailing emission follows. -/
theorem throttlePend_le_one {α : Type} (d : Nat) :
    ∀ (rest : List (Nat × α)) (e : Nat) (p : Option α),
      (∀ q ∈ rest, q.1 < e) →
        (throttleProc d rest (some (e, p))).length ≤ 1 := by
  intro rest
  induction rest with
  | nil =>
      intro e p h
      cases p <;> simp [throttleProc]
  | cons q rest ih =>
      intro e p h
      obtain ⟨t, a⟩ := q
      have ht : t < e := h (t, a) (List.mem_cons_self _ _)
      have hrest : ∀ q ∈ rest, q.1 < e := fun q hq => h q (List.mem_cons_of_mem _ hq)
      cases p <;> simp [throttleProc, ht] <;> exact ih e (some a) hrest

/-- `combineLatest` produces at most one downstream evaluation per upstream
emission. -/
theorem combineLatestRun_length_le {α : Type} :
    ∀ (l : List (Src × α)) (st : Option α × Option α × Option α),
      (combineLatestRun l st).length ≤ l.length := by
  intro l
  induction l with
  | nil => intro st; simp [combineLatestRun]
  | cons p rest ih =>
      intro st
      obtain ⟨src, v⟩ := p
      rcases h : clStep src v st with ⟨oa, ob, oc⟩
      cases oa <;> cases ob <;> cases oc <;>
        simp [combineLatestRun, h] <;>
        first
        | exact ih _
        | exact Nat.le_succ_of_le (ih _)

/-- Tagging an emission list for the three chains triples its length. -/
theorem tagTriples_length {α : Type} :
    ∀ l : List (Nat × α), (tagTriples l).length = 3 * l.length := by
  intro l
  induction l with
  | nil => rfl
  | cons p rest ih => simp [tagTriples, ih]; ring

/-- C7 (amended): for a burst of input changes within a 50ms window starting
from an idle throttle, `analyzeContributions` (behind one throttled chain) is
evaluated at most twice — one leading and one trailing emission — but
`analyzeComparisons`, fed by the `combineLatest` of three separately
throttled chains, is evaluated up to three times per emission wave, so up to
six times per burst, not twice. -/
theorem claim_C7_amended {α : Type} (t1 : Nat) (a x y z : α)
    (rest : List (Nat × α)) (h : ∀ q ∈ rest, q.1 ≤ t1 + 50) :
    generalEvaluations ((t1, a) :: rest) ≤ 2
    ∧ comparisonEvaluations ((t1, a) :: rest) x y z ≤ 6 := by
  have h200 : ∀ q ∈ rest, q.1 < t1 + 200 := fun q hq =>
    lt_of_le_of_lt (h q hq) (by omega)
  have hthr : (throttleProc 200 ((t1, a) :: rest) none).length ≤ 2 := by
    have heq : throttleProc 200 ((t1, a) :: rest)
        (none : Option (Nat × Option α))
        = (t1, a) :: throttleProc 200 rest (some (t1 + 200, none)) := rfl
    rw [heq]
    simpa using Nat.succ_le_succ (throttlePend_le_one 200 rest (t1 + 200) none h200)
  refine ⟨hthr, ?_⟩
  calc (combineLatestRun (tagTriples (throttleProc 200 ((t1, a) :: rest) none))
          (some x, some y, some z)).length
      ≤ (tagTriples (throttleProc 200 ((t1, a) :: rest) none)).length :=
        combineLatestRun_length_le _ _
    _ = 3 * (throttleProc 200 ((t1, a) :: rest) none).length :=
        tagTriples_length _
    _ ≤ 3 * 2 := Nat.mul_le_mul_left 3 hthr
    _ = 6 := rfl

/-- C7 (witness): the amended bound applied to a concrete three-event burst
inside a 50ms window. -/
theorem claim_C7_witness :
    (∀ q ∈ [((5 : Nat), (1 : Nat)), (10, 2)], q.1 ≤ 0 + 50)
    ∧ (generalEvaluations [((0 : Nat), (0 : Nat)), (5, 1), (10, 2)] ≤ 2
       ∧ comparisonEvaluations [((0 : Nat), (0 : Nat)), (5, 1), (10, 2)] 7 8 9 ≤ 6) :=
  ⟨by decide, claim_C7_amended 0 0 7 8 9 [(5, 1), (10, 2)] (by decide)⟩

/-- C7 (counterexample): on a ten-change burst within 50ms, the single-chain
stage behind `generalAnalyses$` evaluates exactly twice (leading plus
trailing), but `analyzeComparisons` — downstream of the `combineLatest` of
the three separately throttled chains `mainGroup$`, `compareGroup$` and
`global$`, all latched since construction — evaluates six times, more than
the claimed two. -/
theorem claim_C7_counterexample :
    generalEvaluations burstEvents = 2
    ∧ comparisonEvaluations burstEvents 100 101 102 = 6
    ∧ ¬ comparisonEvaluations burstEvents 100 101 102 ≤ 2 := by
  decide

end Breakout
